import Mathlib

/-!
A shallow embedding of `bin/harmonise.py`, the schema-driven record
harmoniser: the per-type scalar normalisers (integer, decimal, date, URI,
address), the enum and organisation resolvers, the geometry resolver, the
default carry-forward state, the per-record pipeline and the load-time
enum-patch validation.

Modelling conventions.
* Python strings are Lean `String`s; the helper functions below reproduce
  the CPython semantics of the string and regex operations the script
  uses, on the ASCII inputs the pipeline handles.
* `decimal.Decimal` is modelled by `PyDecimal` (sign, coefficient,
  exponent), restricted to finite values.  The default decimal context has
  28 digits of precision and ROUND_HALF_EVEN rounding; `quantize` (hence
  the Python builtin `round` on a `Decimal`) signals InvalidOperation when
  the rounded coefficient needs more than 28 digits.  An uncaught Python
  exception is modelled as `none` (or `Except.error` at load time).
* The pyproj OSGB-to-WGS84 reprojection and the `validators.url`
  predicate are external capabilities of the script; they enter the
  embedding as explicit function parameters (`tf`, `isUrl`).
* The anomaly log is modelled by returning `List Issue`; the row number
  column, added by the global `log_issue` from the mutable global
  `row_number`, is orthogonal to the claims and omitted.
-/

namespace Harmonise

/-- Python whitespace, as recognised by `str.split()`, `str.strip()` and
the `int()` constructor, restricted to ASCII. -/
def pyIsSpace (c : Char) : Bool :=
  c = ' ' ∨ c = '\t' ∨ c = '\n' ∨ c = '\r' ∨ c = '\x0b' ∨ c = '\x0c'

/-- Drop characters satisfying `p` from both ends of a character list. -/
def stripBothIf (p : Char → Bool) (cs : List Char) : List Char :=
  ((cs.dropWhile p).reverse.dropWhile p).reverse

/-- Python `value.strip(chars)`: remove leading and trailing characters
belonging to `set`. -/
def pyStripChars (s : String) (set : List Char) : String :=
  String.mk (stripBothIf (fun c => c ∈ set) s.toList)

/-- Helper for `pySplitWs`: accumulate the current token (reversed). -/
def splitWsAux : List Char → List Char → List (List Char)
  | [], acc => if acc = [] then [] else [acc.reverse]
  | c :: cs, acc =>
    if pyIsSpace c then
      if acc = [] then splitWsAux cs [] else acc.reverse :: splitWsAux cs []
    else splitWsAux cs (c :: acc)

/-- Python `value.split()` with no argument: split on runs of whitespace,
discarding empty tokens. -/
def pySplitWs (s : String) : List String :=
  (splitWsAux s.toList []).map String.mk

/-- Python `str.lower()` (ASCII). -/
def pyLower (s : String) : String := String.mk (s.toList.map Char.toLower)

/-- Numeric value of a list of decimal digit characters. -/
def digitsToNat (cs : List Char) : Nat :=
  cs.foldl (fun a c => a * 10 + (c.toNat - '0'.toNat)) 0

/-- One normalisation issue as written by `log_issue` (without the
`row-number` column, which the claims do not touch). -/
structure Issue where
  field : String
  datatype : String
  value : String
deriving DecidableEq, Repr

/-! ### decimal.Decimal -/

/-- A finite `decimal.Decimal` value: sign, coefficient and exponent.
The value denoted is `(-1)^neg * coeff * 10^exp`. -/
structure PyDecimal where
  neg : Bool
  coeff : Nat
  exp : Int
deriving DecidableEq, Repr

/-- The `Decimal(str)` constructor on finite numeric strings: strip
surrounding whitespace, drop every underscore (the constructor does
`value.strip().replace("_", "")` before parsing), then an optional sign,
digits with an optional fractional part, and an optional exponent part.
(The constructor also accepts the special values Infinity and NaN, which
this embedding leaves out; they only arise from inputs that in any case
crash the script inside `format_decimal`, like the oversized finite
inputs treated below.) -/
def parsePyDecimal (s : String) : Option PyDecimal :=
  let cs := (stripBothIf pyIsSpace s.toList).filter (· ≠ '_')
  let (neg, cs) :=
    match cs with
    | '-' :: r => (true, r)
    | '+' :: r => (false, r)
    | r => (false, r)
  let ip := cs.takeWhile Char.isDigit
  let r1 := cs.drop ip.length
  let (fp, r2) :=
    match r1 with
    | '.' :: r => (r.takeWhile Char.isDigit, r.drop (r.takeWhile Char.isDigit).length)
    | r => ([], r)
  if ip.isEmpty ∧ fp.isEmpty then none
  else
    match r2 with
    | [] => some ⟨neg, digitsToNat (ip ++ fp), -(fp.length : Int)⟩
    | e :: r3 =>
      if e = 'e' ∨ e = 'E' then
        let (eneg, r4) :=
          match r3 with
          | '-' :: r => (true, r)
          | '+' :: r => (false, r)
          | r => (false, r)
        let ed := r4.takeWhile Char.isDigit
        if ed.isEmpty ∨ ed.length ≠ r4.length then none
        else
          let ev : Int := if eneg then -(digitsToNat ed : Int) else (digitsToNat ed : Int)
          some ⟨neg, digitsToNat (ip ++ fp), ev - (fp.length : Int)⟩
      else none

/-- Python `round(d, p)` on a `Decimal`, which is `d.quantize(10^-p)` in
the default context: ROUND_HALF_EVEN, 28 digits of precision.  Returns
`none` when quantize signals InvalidOperation because the resulting
coefficient would need more than 28 digits (`c >= 10^28`); the default
context traps InvalidOperation, so the Python call raises there. -/
def pyRoundDec (d : PyDecimal) (p : Nat) : Option PyDecimal :=
  let target : Int := -(p : Int)
  let c :=
    if target ≤ d.exp then d.coeff * 10 ^ (d.exp - target).toNat
    else
      let k := (target - d.exp).toNat
      let q := d.coeff / 10 ^ k
      let r := d.coeff % 10 ^ k
      let half := 5 * 10 ^ (k - 1)
      if half < r ∨ (r = half ∧ q % 2 = 1) then q + 1 else q
  if 10 ^ 28 ≤ c then none else some ⟨d.neg, c, target⟩

/-- Strip factors of 10 from the coefficient, bumping the exponent; the
fuel bounds the number of digits, and every caller passes a coefficient
of at most 28 digits (the context precision). -/
def stripZerosAux : Nat → Nat → Int → Nat × Int
  | 0, c, e => (c, e)
  | fuel + 1, c, e => if c % 10 = 0 then stripZerosAux fuel (c / 10) (e + 1) else (c, e)

/-- `Decimal.normalize()` on an in-context value: strip the rightmost
trailing zeros from the coefficient (a zero becomes exponent 0). -/
def pyNormalize (d : PyDecimal) : PyDecimal :=
  if d.coeff = 0 then ⟨d.neg, 0, 0⟩
  else
    let (c, e) := stripZerosAux 28 d.coeff d.exp
    ⟨d.neg, c, e⟩

/-- `str()` of a finite `Decimal`, following the spec of
`Decimal.__str__`: fixed-point notation when `exp <= 0` and the adjusted
exponent is at least -6, scientific notation otherwise. -/
def pyDecimalStr (d : PyDecimal) : String :=
  let ds := Nat.repr d.coeff
  let l := ds.toList
  let n : Int := (l.length : Int)
  let adj : Int := d.exp + n - 1
  let sign := if d.neg then "-" else ""
  if d.exp ≤ 0 ∧ -6 ≤ adj then
    if d.exp = 0 then sign ++ ds
    else if 0 ≤ adj then
      sign ++ String.mk (l.take (n + d.exp).toNat) ++ "." ++ String.mk (l.drop (n + d.exp).toNat)
    else
      sign ++ "0." ++ String.mk (List.replicate (-adj - 1).toNat '0') ++ ds
  else
    let mant :=
      match l with
      | [c] => String.mk [c]
      | c :: rest => String.mk [c] ++ "." ++ String.mk rest
      | [] => "0"
    let esign := if 0 ≤ adj then "+" else "-"
    sign ++ mant ++ "E" ++ esign ++ Nat.repr adj.natAbs

/-- `format_decimal(value, precision=6)`: `str(round(Decimal, precision).normalize())`.
`none` is the InvalidOperation raise from `round` (see `pyRoundDec`). -/
def format_decimal (value : PyDecimal) (precision : Nat) : Option String :=
  (pyRoundDec value precision).map (fun r => pyDecimalStr (pyNormalize r))

/-! ### Integer normaliser -/

/-- `re.sub(r"\.0+$", "", value, 1)` on a character list: the only
possible matches of the pattern are suffixes, so the single substitution
removes the longest suffix consisting of a dot followed by one or more
zeros, when there is one.  `"42.0.0"` does match (its final `".0"`),
leaving `"42.0"`. -/
def subDotZerosL : List Char → List Char
  | [] => []
  | c :: cs => if c = '.' ∧ cs ≠ [] ∧ cs.all (· = '0') then [] else c :: subDotZerosL cs

/-- The strip step of `normalise_integer`. -/
def subDotZeros (s : String) : String := String.mk (subDotZerosL s.toList)

/-- Digit group accepted by the Python `int()` constructor after the
sign: digits with single underscores strictly between digits. -/
def underscoredTail : List Char → Bool
  | [] => true
  | '_' :: c :: rest => c.isDigit ∧ underscoredTail rest
  | ['_'] => false
  | c :: rest => c.isDigit ∧ underscoredTail rest

/-- Nonempty digit group for `int()`. -/
def underscoredDigitsOk : List Char → Bool
  | [] => false
  | c :: rest => c.isDigit ∧ underscoredTail rest

/-- The Python `int(str)` constructor: optional surrounding whitespace,
optional sign, base-10 digits with optional single grouping underscores. -/
def pyInt (s : String) : Option Int :=
  let cs := stripBothIf pyIsSpace s.toList
  let (neg, ds) :=
    match cs with
    | '-' :: r => (true, r)
    | '+' :: r => (false, r)
    | r => (false, r)
  if underscoredDigitsOk ds then
    let v : Int := (digitsToNat (ds.filter (· ≠ '_')) : Int)
    some (if neg then -v else v)
  else none

/-- `format_integer(value)`: `str(int(value))`. -/
def format_integer (n : Int) : String := toString n

/-- `normalise_integer(field, value)`.  Note that the issue it logs on a
parse failure carries the value after the `\.0+$` strip, since the source
reassigns `value` before the `try`. -/
def normalise_integer (field value : String) : String × List Issue :=
  let value := subDotZeros value
  match pyInt value with
  | some n => (format_integer n, [])
  | none => ("", [⟨field, "integer", value⟩])

/-- `normalise_decimal(field, value, precision)`.  The `precision`
parameter is accepted and then dropped, exactly as in the source: the
body calls `format_decimal(d)` without passing it, so the default 6 is
what runs.  `none` is the uncaught InvalidOperation raise from
`format_decimal`, which sits outside the try/except. -/
def normalise_decimal (field value : String) (precision : Nat) : Option (String × List Issue) :=
  match parsePyDecimal value with
  | none => some ("", [⟨field, "decimal", value⟩])
  | some d => (format_decimal d 6).map (fun s => (s, []))

/-! ### Generic run substitution (used by the enum key and the address
normaliser) -/

/-- Replace every maximal run of characters satisfying `p` that contains
at least one character satisfying `q` by `rep`; runs without a `q`
character are kept verbatim.  This is the effect of
`re.sub(r"(\s*X\s*){1,}", rep, s)` for a one-character token `X` (with
`p` accepting whitespace and `X`, `q` accepting `X`), and of
`re.sub(r"[^C]+", rep, s)` (with `p` the complement of the class and `q`
always true).  `pending` holds the current run reversed, `seen` whether
it contains a `q` character. -/
def subRunsGo (p q : Char → Bool) (rep : List Char) :
    List Char → List Char → Bool → List Char
  | [], pending, seen => if seen then rep else pending.reverse
  | c :: cs, pending, seen =>
    if p c then subRunsGo p q rep cs (c :: pending) (seen ∨ q c)
    else (if seen then rep else pending.reverse) ++ c :: subRunsGo p q rep cs [] false

/-- Entry point for `subRunsGo`. -/
def subRuns (p q : Char → Bool) (rep : List Char) (cs : List Char) : List Char :=
  subRunsGo p q rep cs [] false

/-! ### Enum resolver -/

/-- The character class `[a-z0-9-_ ]` of `normalise_enum_value.strip`. -/
def enumClass (c : Char) : Bool :=
  ('a' ≤ c ∧ c ≤ 'z') ∨ ('0' ≤ c ∧ c ≤ '9') ∨ c = '-' ∨ c = '_' ∨ c = ' '

/-- `normalise_enum_value(value)`:
`" ".join(strip.sub(" ", value.lower()).split())` where `strip` is
`re.compile(r"([^a-z0-9-_ ]+)")`: lower-case, replace each run of
characters outside the class by a single space, then collapse and trim
whitespace. -/
def normalise_enum_value (value : String) : String :=
  String.intercalate " "
    (pySplitWs (String.mk (subRuns (fun c => ¬ enumClass c) (fun _ => true) [' ']
      (pyLower value).toList)))

/-- Association-list lookup keyed by strings (a Python dict access with
insertion-ordered keys). -/
def assocGet {α : Type} : List (String × α) → String → Option α
  | [], _ => none
  | (k, v) :: r, key => if k = key then some v else assocGet r key

/-- Association-list update: replace the value if the key is present,
append otherwise (Python dict assignment, preserving insertion order). -/
def assocSet {α : Type} : List (String × α) → String → α → List (String × α)
  | [], key, val => [(key, val)]
  | (k, v) :: r, key, val => if k = key then (k, val) :: r else (k, v) :: assocSet r key val

/-- The per-field enum index `field_value`: field name to a mapping from
normalised key to canonical enum token. -/
abbrev EnumIndex : Type := List (String × List (String × String))

/-- The two-level lookup `field in field_value and value in field_value[field]`. -/
def enumLookup (fv : EnumIndex) (field key : String) : Option String :=
  (assocGet fv field).bind (fun m => assocGet m key)

/-- `normalise_enum(field, fieldvalue)`: normalise the raw value to a key
and look it up in the enum index; a miss logs datatype `"enum"` with the
original raw value. -/
def normalise_enum (fv : EnumIndex) (field fieldvalue : String) : String × List Issue :=
  match enumLookup fv field (normalise_enum_value fieldvalue) with
  | some e => (e, [])
  | none => ("", [⟨field, "enum", fieldvalue⟩])

/-! ### Organisation resolver -/

/-- `lower_uri(value)`: `"".join(value.split()).lower()` - remove all
whitespace, then lower-case. -/
def lower_uri (value : String) : String :=
  pyLower (String.join (pySplitWs value))

/-- Suffix after the last `/`, as produced by `re.sub(r".*/", "", t)`:
the greedy `.*` runs to the last slash. -/
def afterLastSlash : List Char → List Char
  | [] => []
  | c :: rest =>
    if '/' ∈ rest then afterLastSlash rest
    else if c = '/' then rest
    else c :: rest

/-- `end_of_uri(value)`: `end_of_uri.regex.sub("", value.rstrip("/").lower())`. -/
def end_of_uri (value : String) : String :=
  let t := pyLower (String.mk (value.toList.reverse.dropWhile (· = '/') |>.reverse))
  String.mk (afterLastSlash t.toList)

/-- `normalise_organisation_uri(field, fieldvalue)` against the
organisation index built by `load_organisations` (the index itself is
read from reference files, outside the core; it enters as a parameter).
Both lookups missing logs datatype `"opendatacommunities-uri"` with the
original, unnormalised raw value. -/
def normalise_organisation_uri (idx : List (String × String)) (field fieldvalue : String) :
    String × List Issue :=
  let value := lower_uri fieldvalue
  match assocGet idx value with
  | some uri => (uri, [])
  | none =>
    match assocGet idx (end_of_uri value) with
    | some uri => (uri, [])
    | none => ("", [⟨field, "opendatacommunities-uri", fieldvalue⟩])

/-! ### URI and address normalisers -/

/-- Python `value.split(sep)` for a one-character separator: split on
every occurrence, keeping empty pieces. -/
def splitOnChar (sep : Char) : List Char → List (List Char)
  | [] => [[]]
  | c :: cs =>
    if c = sep then [] :: splitOnChar sep cs
    else
      match splitOnChar sep cs with
      | t :: ts => (c :: t) :: ts
      | [] => [[c]]

/-- `normalise_uri(field, value)`: remove all whitespace (join of the
whitespace split), then test with the external `validators.url`
capability `isUrl`. -/
def normalise_uri (isUrl : String → Bool) (field value : String) : String × List Issue :=
  let uri := String.join (pySplitWs value)
  if isUrl uri then (uri, [])
  else ("", [⟨field, "uri", value⟩])

/-- `normalise_address(field, value)`; the `field` parameter is unused in
the source as well.  Steps: join lines with `", "`; turn `;` into `,`;
collapse every comma run (`(\s*,\s*){1,}`) to `", "`; strip surrounding
commas and spaces; collapse spaced hyphen runs (`(\s*-\s*){1,}`) to `-`;
collapse whitespace; drop straight and curly double quotes. -/
def normalise_address (field value : String) : String :=
  let v1 := String.intercalate ", " ((splitOnChar '\n' value.toList).map String.mk)
  let v2 := String.mk (v1.toList.map (fun c => if c = ';' then ',' else c))
  let v3 := String.mk (subRuns (fun c => c = ',' ∨ pyIsSpace c) (fun c => c = ',') [',', ' ']
    v2.toList)
  let v4 := pyStripChars v3 [',', ' ']
  let v5 := String.mk (subRuns (fun c => c = '-' ∨ pyIsSpace c) (fun c => c = '-') ['-']
    v4.toList)
  let v6 := String.intercalate " " (pySplitWs v5)
  String.mk (v6.toList.filter (fun c => c ≠ '"' ∧ c ≠ '”'))

/-! ### Date normaliser

`normalise_date` tries `datetime.strptime` on a fixed, ordered list of
patterns.  CPython `_strptime` compiles a pattern to one regular
expression (case-insensitive): each directive becomes the alternation
shown on the corresponding case below, a whitespace run in the pattern
becomes `\s+`, and any other character a literal.  The expression is
matched as a prefix (`re.match`); the engine picks the first match in
backtracking priority order, and `strptime` then raises if that match
does not reach the end of the string or if `datetime(...)` rejects the
assembled values (day out of range for the month, year 0).  The model
below enumerates prefix matches in exactly that priority order and keeps
the head. -/

/-- The strptime format directives occurring in the pattern list, plus
literals and pattern whitespace. -/
inductive FmtTok where
  | lit (c : Char)
  | ws
  | dY
  | dm
  | dd
  | dH
  | dMin
  | dS
  | dy
  | db
  | dB
deriving DecidableEq, Repr

/-- Translate a strptime pattern string into tokens. -/
def parseFmtL : List Char → List FmtTok
  | [] => []
  | '%' :: c :: rest =>
    (match c with
     | 'Y' => FmtTok.dY
     | 'm' => FmtTok.dm
     | 'd' => FmtTok.dd
     | 'H' => FmtTok.dH
     | 'M' => FmtTok.dMin
     | 'S' => FmtTok.dS
     | 'y' => FmtTok.dy
     | 'b' => FmtTok.db
     | 'B' => FmtTok.dB
     | c => FmtTok.lit c) :: parseFmtL rest
  | c :: rest => (if pyIsSpace c then FmtTok.ws else FmtTok.lit c) :: parseFmtL rest

/-- Date components assembled by strptime, with the CPython defaults
(year 1900, January the 1st).  Time-of-day directives are matched but
their values are discarded, as `normalise_date` only prints the date. -/
structure DParts where
  y : Nat := 1900
  m : Nat := 1
  d : Nat := 1
deriving DecidableEq, Repr

/-- Digit value of a digit character. -/
def dv (c : Char) : Nat := c.toNat - '0'.toNat

/-- `%m` is `1[0-2]|0[1-9]|[1-9]`, alternatives in priority order. -/
def mAlts : List Char → List (Nat × List Char)
  | a :: b :: rest =>
    (if a = '1' ∧ '0' ≤ b ∧ b ≤ '2' then [(10 + dv b, rest)] else []) ++
    (if a = '0' ∧ '1' ≤ b ∧ b ≤ '9' then [(dv b, rest)] else []) ++
    (if '1' ≤ a ∧ a ≤ '9' then [(dv a, b :: rest)] else [])
  | [a] => if '1' ≤ a ∧ a ≤ '9' then [(dv a, [])] else []
  | [] => []

/-- `%d` is `3[01]|[1-2]\d|0[1-9]|[1-9]`. -/
def ddAlts : List Char → List (Nat × List Char)
  | a :: b :: rest =>
    (if a = '3' ∧ (b = '0' ∨ b = '1') then [(30 + dv b, rest)] else []) ++
    (if ('1' ≤ a ∧ a ≤ '2') ∧ b.isDigit then [(dv a * 10 + dv b, rest)] else []) ++
    (if a = '0' ∧ '1' ≤ b ∧ b ≤ '9' then [(dv b, rest)] else []) ++
    (if '1' ≤ a ∧ a ≤ '9' then [(dv a, b :: rest)] else [])
  | [a] => if '1' ≤ a ∧ a ≤ '9' then [(dv a, [])] else []
  | [] => []

/-- `%H` is `2[0-3]|[0-1]\d|\d`. -/
def hAlts : List Char → List (Nat × List Char)
  | a :: b :: rest =>
    (if a = '2' ∧ '0' ≤ b ∧ b ≤ '3' then [(20 + dv b, rest)] else []) ++
    (if (a = '0' ∨ a = '1') ∧ b.isDigit then [(dv a * 10 + dv b, rest)] else []) ++
    (if a.isDigit then [(dv a, b :: rest)] else [])
  | [a] => if a.isDigit then [(dv a, [])] else []
  | [] => []

/-- `%M` and `%S` are `[0-5]\d|\d`. -/
def msAlts : List Char → List (Nat × List Char)
  | a :: b :: rest =>
    (if ('0' ≤ a ∧ a ≤ '5') ∧ b.isDigit then [(dv a * 10 + dv b, rest)] else []) ++
    (if a.isDigit then [(dv a, b :: rest)] else [])
  | [a] => if a.isDigit then [(dv a, [])] else []
  | [] => []

/-- Lower-case month abbreviations, in locale order (all the same
length, and no one a prefix of another, so alternation order within the
compiled regex cannot matter). -/
def monthAbbrevs : List String :=
  ["jan", "feb", "mar", "apr", "may", "jun", "jul", "aug", "sep", "oct", "nov", "dec"]

/-- Lower-case full month names (no one a prefix of another). -/
def monthFulls : List String :=
  ["january", "february", "march", "april", "may", "june", "july", "august",
   "september", "october", "november", "december"]

/-- Case-insensitive prefix strip: `name` is already lower-case. -/
def stripPrefixCI : List Char → List Char → Option (List Char)
  | [], s => some s
  | _ :: _, [] => none
  | n :: ns, c :: cs => if c.toLower = n then stripPrefixCI ns cs else none

/-- Month-name alternatives: the matched month number and the rest. -/
def monAlts (names : List String) (s : List Char) : List (Nat × List Char) :=
  names.enum.filterMap (fun p => (stripPrefixCI p.2.toList s).map (fun r => (p.1 + 1, r)))

/-- All ways one token can match a prefix of the input, in regex
backtracking priority order, with the updated date parts.  Pattern
whitespace (`\s+`) is greedy: longest run first.  Literals compare
case-insensitively, as the whole expression carries IGNORECASE. -/
def tokAlts : FmtTok → DParts → List Char → List (DParts × List Char)
  | FmtTok.lit c, p, s =>
    match s with
    | d :: rest => if d.toLower = c.toLower then [(p, rest)] else []
    | [] => []
  | FmtTok.ws, p, s =>
    let n := (s.takeWhile pyIsSpace).length
    (List.range n).map (fun i => (p, s.drop (n - i)))
  | FmtTok.dY, p, s =>
    match s with
    | a :: b :: c :: d :: rest =>
      if a.isDigit ∧ b.isDigit ∧ c.isDigit ∧ d.isDigit then
        [({ p with y := dv a * 1000 + dv b * 100 + dv c * 10 + dv d }, rest)]
      else []
    | _ => []
  | FmtTok.dy, p, s =>
    match s with
    | a :: b :: rest =>
      if a.isDigit ∧ b.isDigit then
        let v := dv a * 10 + dv b
        [({ p with y := if v ≤ 68 then 2000 + v else 1900 + v }, rest)]
      else []
    | _ => []
  | FmtTok.dm, p, s => (mAlts s).map (fun r => ({ p with m := r.1 }, r.2))
  | FmtTok.dd, p, s => (ddAlts s).map (fun r => ({ p with d := r.1 }, r.2))
  | FmtTok.dH, p, s => (hAlts s).map (fun r => (p, r.2))
  | FmtTok.dMin, p, s => (msAlts s).map (fun r => (p, r.2))
  | FmtTok.dS, p, s => (msAlts s).map (fun r => (p, r.2))
  | FmtTok.db, p, s => (monAlts monthAbbrevs s).map (fun r => ({ p with m := r.1 }, r.2))
  | FmtTok.dB, p, s => (monAlts monthFulls s).map (fun r => ({ p with m := r.1 }, r.2))

/-- All prefix matches of a token list against the input, in backtracking
priority order (depth-first, alternatives in `tokAlts` order). -/
def matchToks : List FmtTok → List Char → DParts → List (DParts × List Char)
  | [], s, p => [(p, s)]
  | t :: ts, s, p => ((tokAlts t p s).map (fun r => matchToks ts r.2 r.1)).flatten

/-- Gregorian leap year, as validated by `datetime`. -/
def isLeap (y : Nat) : Bool := y % 4 = 0 ∧ (y % 100 ≠ 0 ∨ y % 400 = 0)

/-- Days in a month, as validated by `datetime`. -/
def daysInMonth (y m : Nat) : Nat :=
  if m = 2 then (if isLeap y then 29 else 28)
  else if m = 4 ∨ m = 6 ∨ m = 9 ∨ m = 11 then 30
  else 31

/-- `datetime.strptime(value, pattern)` reduced to the date components:
take the priority-first prefix match, require it to consume the whole
string, and validate the assembled date as `datetime` does. -/
def strptimeOpt (fmt : List FmtTok) (s : List Char) : Option DParts :=
  match matchToks fmt s {} with
  | [] => none
  | (p, rest) :: _ =>
    if rest = [] ∧ 1 ≤ p.y ∧ p.y ≤ 9999 ∧ 1 ≤ p.m ∧ p.m ≤ 12 ∧ 1 ≤ p.d ∧
        p.d ≤ daysInMonth p.y p.m then
      some p
    else none

/-- The ordered pattern list of `normalise_date`, verbatim from the
source (including the duplicated `"%d-%m-%Y"`); the two patterns marked
risky in the source are the day/month-ambiguous `"%Y-%d-%m"` and the
US month-first `"%m/%d/%Y"`, which is last. -/
def datePatterns : List String :=
  ["%Y-%m-%d",
   "%Y%m%d",
   "%Y-%m-%dT%H:%M:%S.000Z",
   "%Y-%m-%dT%H:%M:%SZ",
   "%Y-%m-%dT%H:%M:%S",
   "%Y-%m-%d %H:%M:%S",
   "%Y/%m/%d",
   "%Y %m %d",
   "%Y.%m.%d",
   "%Y-%d-%m",
   "%Y",
   "%Y.0",
   "%d/%m/%Y %H:%M:%S",
   "%d/%m/%Y %H:%M",
   "%d-%m-%Y",
   "%d-%m-%y",
   "%d-%m-%Y",
   "%d.%m.%Y",
   "%d.%m.%y",
   "%d/%m/%Y",
   "%d/%m/%y",
   "%d-%b-%Y",
   "%d-%b-%y",
   "%d %B %Y",
   "%b %d, %Y",
   "%b %d, %y",
   "%b-%y",
   "%m/%d/%Y"]

/-- Zero-pad to two digits, as `%m`/`%d` in `strftime`. -/
def pad2 (n : Nat) : String := if n < 10 then "0" ++ Nat.repr n else Nat.repr n

/-- `date.strftime("%Y-%m-%d")` (years in the pattern list are four
digits, where this agrees with the platform strftime). -/
def formatDate (p : DParts) : String :=
  Nat.repr p.y ++ "-" ++ pad2 p.m ++ "-" ++ pad2 p.d

/-- The first pattern that parses the (stripped) value, if any. -/
def firstDateParse (value : String) : Option DParts :=
  datePatterns.findSome? (fun pat => strptimeOpt (parseFmtL pat.toList) value.toList)

/-- `normalise_date(context, fieldvalue)`: strip surrounding spaces,
double quotes and commas, then try the patterns in order; the first
successful parse wins.  The failure path logs through the name `field`,
which is not the parameter (named `context` in the source): at every
call site the enclosing loop of the main block has set the global
`field` to the field being normalised, which is also what is passed as
`context`, so the logged field is the first argument here. -/
def normalise_date (context fieldvalue : String) : String × List Issue :=
  let value := pyStripChars fieldvalue [' ', '"', ',']
  match firstDateParse value with
  | some p => (formatDate p, [])
  | none => ("", [⟨context, "date", fieldvalue⟩])

/-! ### Geometry resolver -/

/-- The integer `value * 10^(-e)` of a finite `Decimal`, defined for
`e ≤ exp`; used to compare two decimals exactly at a common exponent. -/
def PyDecimal.scaled (d : PyDecimal) (e : Int) : Int :=
  let m : Int := if d.neg then -(d.coeff : Int) else (d.coeff : Int)
  m * (10 : Int) ^ (d.exp - e).toNat

/-- Exact order on finite `Decimal` values, by cross-scaling to the
smaller exponent. -/
def decLt (x y : PyDecimal) : Prop :=
  x.scaled (min x.exp y.exp) < y.scaled (min x.exp y.exp)

instance (x y : PyDecimal) : Decidable (decLt x y) := by
  unfold decLt; infer_instance

/-- `within_england(geox, geoy)`: the first argument is longitude-like,
the second latitude-like.  The Python comparisons are between `Decimal`
values and the float literals `49.5`, `56.0`, `-7.0` and the int `2`;
all four are exactly the decimal values used here, so the comparison is
the same exact one. -/
def within_england (geox geoy : PyDecimal) : Prop :=
  decLt ⟨false, 495, -1⟩ geoy ∧ decLt geoy ⟨false, 56, 0⟩ ∧
  decLt ⟨true, 7, 0⟩ geox ∧ decLt geox ⟨false, 2, 0⟩

instance (geox geoy : PyDecimal) : Decidable (within_england geox geoy) := by
  unfold within_england; infer_instance

/-- A record: field name to string value, in schema field order (a
Python dict with insertion-ordered keys). -/
abbrev Row : Type := List (String × String)

/-- `row.get(key, "")` and `row[key]` on records whose keys are the
schema fields. -/
def getv : Row → String → String
  | [], _ => ""
  | (k, v) :: r, key => if k = key then v else getv r key

/-- `row[key] = val`: replace in place, append when absent. -/
def setv : Row → String → String → Row
  | [], key, val => [(key, val)]
  | (k, v) :: r, key, val => if k = key then (k, val) :: r else (k, v) :: setv r key val

/-- `normalise_geometry(row)`.  `tf` is the external pyproj capability
`osgb_to_wgs84.transform`, taking the two coordinates and returning
`(lat, lon)`.  The function blanks both fields before branching, so the
issue logged on the failure path joins the already-blanked fields: its
value is always `","`, not the original pair.  `none` models the
exceptions the source can raise here: `Decimal(...)` on a non-numeric
value and `format_decimal` on an out-of-context result (the dead
`isinstance` test on line 96 of the source guards neither).  -/
def normalise_geometry (tf : PyDecimal → PyDecimal → PyDecimal × PyDecimal) (row : Row) :
    Option (Row × List Issue) :=
  if getv row "GeoX" = "" ∨ getv row "GeoY" = "" then some (row, [])
  else
    match parsePyDecimal (getv row "GeoX"), parsePyDecimal (getv row "GeoY") with
    | some geox, some geoy =>
      let row := setv (setv row "GeoX" "") "GeoY" ""
      let write : PyDecimal → PyDecimal → Option (Row × List Issue) := fun lon lat =>
        (format_decimal lon 6).bind (fun sx =>
          (format_decimal lat 6).map (fun sy =>
            (setv (setv row "GeoX" sx) "GeoY" sy, [])))
      if within_england geox geoy then write geox geoy
      else if within_england geoy geox then write geoy geox
      else
        let (lat, lon) := tf geox geoy
        if within_england lon lat then write lon lat
        else
          let (lat, lon) := tf geoy geox
          if within_england lon lat then write lon lat
          else
            some (row, [⟨"GeoX,GeoY", "OSGB",
              String.intercalate "," [getv row "GeoX", getv row "GeoY"]⟩])
    | _, _ => none

/-- A stand-in for the external reprojection used in concrete
evaluations: it sends everything to latitude 0, longitude 0, which lies
outside the within-England box, as the real reprojection does for the
raw pairs used below. -/
def tfZero : PyDecimal → PyDecimal → PyDecimal × PyDecimal :=
  fun _ _ => (⟨false, 0, 0⟩, ⟨false, 0, 0⟩)

/-! ### Schema fields and the dispatch of `normalise` -/

/-- One schema field, with the absent-key defaults the source reads with
`field.get(...)`: `type` and `format` default to `""`, `enum` is present
exactly when `constraints` carries an `enum` list, and the
`digital-land` extension block contributes `strip`, `precision` and its
own `format` (here `dlFormat`).  A strip entry is an arbitrary regular
expression; the action `re.sub(pattern, "", value)` of each is embedded
as a string function, since the claims never fix a concrete pattern. -/
structure FieldSpec where
  name : String
  type : String := ""
  format : String := ""
  enum : Option (List String) := none
  strip : List (String → String) := []
  precision : Option Nat := none
  dlFormat : String := ""

/-- The process-wide read-only context of `normalise`: the organisation
index built by `load_organisations` from reference files, the enum index
built by `load_field_value`, and the external `validators.url`
capability. -/
structure Env where
  organisation_uri : List (String × String)
  field_value : EnumIndex
  isUrl : String → Bool

/-- The strip loop of `normalise`: apply each strip substitution in
declared order. -/
def applyStrips (strips : List (String → String)) (v : String) : String :=
  strips.foldl (fun v g => g v) v

/-- `normalise(fieldname, value)`: empty input is returned at once with
no log; otherwise the strip patterns are applied and exactly one
normaliser runs, selected by the priority order of the source.  `none`
is an uncaught exception escaping from `normalise_decimal`. -/
def normalise (env : Env) (f : FieldSpec) (value : String) : Option (String × List Issue) :=
  if value = "" then some ("", [])
  else
    let v := applyStrips f.strip value
    if f.name = "OrganisationURI" then
      some (normalise_organisation_uri env.organisation_uri f.name v)
    else if f.type = "integer" then some (normalise_integer f.name v)
    else if f.type = "number" then normalise_decimal f.name v (f.precision.getD 6)
    else if f.type = "date" then some (normalise_date f.name v)
    else if f.format = "uri" then some (normalise_uri env.isUrl f.name v)
    else if f.dlFormat = "address" then some (normalise_address f.name v, [])
    else if f.enum.isSome then some (normalise_enum env.field_value f.name v)
    else some (v, [])

/-- The closed set of normaliser kinds, one per dispatch branch. -/
inductive NKind where
  | org
  | intK
  | numK
  | dateK
  | uriK
  | addrK
  | enumK
  | verbatimK
deriving DecidableEq, Repr

/-- The kind of normaliser a field routes to, resolved from the schema
alone in the priority order of the dispatch. -/
def normaliserKind (f : FieldSpec) : NKind :=
  if f.name = "OrganisationURI" then NKind.org
  else if f.type = "integer" then NKind.intK
  else if f.type = "number" then NKind.numK
  else if f.type = "date" then NKind.dateK
  else if f.format = "uri" then NKind.uriK
  else if f.dlFormat = "address" then NKind.addrK
  else if f.enum.isSome then NKind.enumK
  else NKind.verbatimK

/-- Run one normaliser kind on an already-stripped value. -/
def runKind (env : Env) (f : FieldSpec) (k : NKind) (v : String) :
    Option (String × List Issue) :=
  match k with
  | NKind.org => some (normalise_organisation_uri env.organisation_uri f.name v)
  | NKind.intK => some (normalise_integer f.name v)
  | NKind.numK => normalise_decimal f.name v (f.precision.getD 6)
  | NKind.dateK => some (normalise_date f.name v)
  | NKind.uriK => some (normalise_uri env.isUrl f.name v)
  | NKind.addrK => some (normalise_address f.name v, [])
  | NKind.enumK => some (normalise_enum env.field_value f.name v)
  | NKind.verbatimK => some (v, [])

/-! ### Default carry-forward -/

/-- The fill half of `default(o)`: for every field with a stored default
(iterated in insertion order, as a Python dict), replace an empty value
by the stored one. -/
def fillDefaults (st : List (String × String)) (o : Row) : Row :=
  st.foldl (fun o kv => if getv o kv.1 = "" then setv o kv.1 kv.2 else o) o

/-- The commit half of `default(o)`: store the now-final value of every
`duplicate`-listed field, unconditionally. -/
def commitDefaults (dup : List String) (o : Row) (st : List (String × String)) :
    List (String × String) :=
  dup.foldl (fun st f => setv st f (getv o f)) st

/-- `default(o)`: fill from the old state first, then commit the new
state from the same row. -/
def defaultFn (dup : List String) (st : List (String × String)) (o : Row) :
    Row × List (String × String) :=
  let o' := fillDefaults st o
  (o', commitDefaults dup o' st)

/-- The carry-forward loop over already-normalised rows, threading the
`default_values` state in input order. -/
def processDefaults (dup : List String) (st : List (String × String)) : List Row → List Row
  | [] => []
  | r :: rs =>
    let (o, st') := defaultFn dup st r
    o :: processDefaults dup st' rs

/-! ### Enum index load and the per-run pipeline -/

/-- One row of `patch/enum.csv`. -/
structure PatchRow where
  field : String
  enum : String
  value : String

/-- The declared enum tokens per field (`field_enum`), from the schema
loop of `load_field_value`. -/
def field_enum_of (fields : List FieldSpec) : List (String × List String) :=
  fields.foldl
    (fun acc f =>
      match f.enum with
      | some es => assocSet acc f.name ((assocGet acc f.name).getD [] ++ es)
      | none => acc)
    []

/-- The identity seeding of `field_value` from the schema loop of
`load_field_value`: normalised token to token, per field. -/
def field_value_of (fields : List FieldSpec) : EnumIndex :=
  fields.foldl
    (fun acc f =>
      match f.enum with
      | some es =>
        es.foldl
          (fun acc e =>
            assocSet acc f.name (assocSet ((assocGet acc f.name).getD []) (normalise_enum_value e) e))
          (assocSet acc f.name ((assocGet acc f.name).getD []))
      | none => acc)
    []

/-- The fatal message of the patch loop, verbatim:
`"invalid '%s' enum '%s' in patch/enum.csv" % (fieldname, enum)`. -/
def invalidEnumMsg (field enum : String) : String :=
  "invalid '" ++ field ++ "' enum '" ++ enum ++ "' in patch/enum.csv"

/-- The patch loop of `load_field_value` over `patch/enum.csv` rows: a
row naming a field absent from `field_enum` raises `KeyError` at the
membership test; a row naming an enum token not declared for its field
raises the `ValueError` carrying `invalidEnumMsg`; otherwise the
normalised value is mapped to the token, overriding the identity
seeding. -/
def applyEnumPatch (fe : List (String × List String)) :
    EnumIndex → List PatchRow → Except String EnumIndex
  | fv, [] => Except.ok fv
  | fv, r :: rs =>
    match assocGet fe r.field with
    | none => Except.error ("KeyError: " ++ r.field)
    | some es =>
      if r.enum ∈ es then
        applyEnumPatch fe
          (assocSet fv r.field
            (assocSet ((assocGet fv r.field).getD []) (normalise_enum_value r.value) r.enum))
          rs
      else Except.error (invalidEnumMsg r.field r.enum)

/-- `load_field_value()`: build the indices from the schema, then apply
the patch rows in order.  An `Except.error` is the uncaught exception
that aborts the run during load. -/
def load_field_value (fields : List FieldSpec) (patch : List PatchRow) :
    Except String EnumIndex :=
  applyEnumPatch (field_enum_of fields) (field_value_of fields) patch

/-- The per-row field loop of the main block: `o[field] =
normalise(field, row[field])` in schema order, collecting issues. -/
def normaliseFields (env : Env) : List FieldSpec → Row → Option (Row × List Issue)
  | [], _ => some ([], [])
  | f :: fs, row => do
    let (v, is1) ← normalise env f (getv row f.name)
    let (o, is2) ← normaliseFields env fs row
    some ((f.name, v) :: o, is1 ++ is2)

/-- The record loop of the main block: normalise each field, resolve
geometry, apply carry-forward, emit; rows are processed strictly in
input order, and `none` is an uncaught exception at row time. -/
def runPipeline (env : Env) (tf : PyDecimal → PyDecimal → PyDecimal × PyDecimal)
    (fields : List FieldSpec) (dup : List String) :
    List (String × String) → List Row → Option (List Row × List Issue)
  | _, [] => some ([], [])
  | st, r :: rs => do
    let (o1, is1) ← normaliseFields env fields r
    let (o2, is2) ← normalise_geometry tf o1
    let (o3, st') := defaultFn dup st o2
    let (outs, isr) ← runPipeline env tf fields dup st' rs
    some (o3 :: outs, is1 ++ is2 ++ isr)

/-- The whole run: `load_field_value` (after `load_organisations`, whose
index is already inside `env0`), then the record loop.  A load failure
aborts before any record is processed. -/
def harmonise_main (env0 : Env) (tf : PyDecimal → PyDecimal → PyDecimal × PyDecimal)
    (fields : List FieldSpec) (dup : List String) (patch : List PatchRow)
    (rows : List Row) : Except String (Option (List Row × List Issue)) :=
  match load_field_value fields patch with
  | Except.error e => Except.error e
  | Except.ok fv => Except.ok (runPipeline { env0 with field_value := fv } tf fields dup [] rows)

/-- The emitted output rows of a run: none when the run aborted at load
time or crashed mid-run. -/
def mainOutputs (r : Except String (Option (List Row × List Issue))) : List Row :=
  match r with
  | Except.ok (some p) => p.1
  | _ => []

/-- The row-level anomaly log of a run. -/
def mainIssues (r : Except String (Option (List Row × List Issue))) : List Issue :=
  match r with
  | Except.ok (some p) => p.2
  | _ => []

/-- A concrete environment for closed evaluations: empty indices and an
always-true URL test. -/
def envT : Env := ⟨[], [], fun _ => true⟩

deriving instance DecidableEq for Except

/-- A number-typed field (the defaults model absent schema keys). -/
def fNumber : FieldSpec := ⟨"Hectares", "number", "", none, [], none, ""⟩

/-- A number-typed field that declares `digital-land` precision 2. -/
def fNumberP2 : FieldSpec := ⟨"Density", "number", "", none, [], some 2, ""⟩

/-- An integer-typed field. -/
def fInteger : FieldSpec := ⟨"Units", "integer", "", none, [], none, ""⟩

/-- A field declaring both `format: uri` and an enum constraint. -/
def fUriEnum : FieldSpec := ⟨"PermissionType", "", "uri", some ["full"], [], none, ""⟩

/-- A one-field schema with an enum constraint, for load-time checks. -/
def fieldsW : List FieldSpec := [⟨"Status", "", "", some ["permitted"], [], none, ""⟩]

/-- A patch row whose enum token is not declared for its field. -/
def patchW : List PatchRow := [⟨"Status", "perm", "Permitted!"⟩]

/-- One input record for the aborted run. -/
def rowsW : List Row := [[("Status", "permitted")]]

end Harmonise


namespace Harmonise

/-! ## Theorems about the claims -/

/-- C1: the claim says `normalise` never raises for any field and input,
with empty input giving empty output and no log, and every per-type
failure logged as an empty result.  The empty-input and log-and-empty
parts hold (second and third conjuncts), but the totality claim fails:
for a number-typed field, `format_decimal` sits outside the try/except,
and `round(Decimal("1E+30"), 6)` signals InvalidOperation because the
quantized coefficient needs 37 digits against the 28-digit context, so
`normalise` propagates an exception (first conjunct). -/
theorem claim1_normalise_raises_on_wide_decimal :
    normalise envT fNumber "1E+30" = none ∧
    normalise envT fNumber "" = some ("", []) ∧
    normalise envT fInteger "x" = some ("", [⟨"Units", "integer", "x"⟩]) := by
  decide

/-- C2: the claim says the decimal normaliser rounds to the field's
configured precision.  The source accepts the precision argument and
drops it, calling `format_decimal(d)` with its default of 6: a field
with precision 2 still gets 6 fractional digits (first two conjuncts,
against the claimed `"51.12"`), while the claim's own examples, which
use the default precision, do hold (last two conjuncts). -/
theorem claim2_precision_is_dropped :
    normalise envT fNumberP2 "51.125" = some ("51.125", []) ∧
    normalise_decimal "Density" "51.125" 2 = some ("51.125", []) ∧
    normalise_decimal "f" "51.123456789" 6 = some ("51.123457", []) ∧
    normalise_decimal "f" "51.500000" 6 = some ("51.5", []) := by
  decide

/-- C3: the claim says the geometry failure path logs the original raw
coordinate pair.  On a pair for which every interpretation falls outside
the within-England box (here `("1", "2")`, with the external
reprojection standing in by `tfZero`, outside the box like the real one
on this input), the resolver does append exactly one issue under field
key `"GeoX,GeoY"` and datatype `"OSGB"` and blanks both outputs, but the
logged value is `","`: the fields were blanked before the join, so the
original pair is lost. -/
theorem claim3_geometry_logs_blanked_pair :
    normalise_geometry tfZero [("GeoX", "1"), ("GeoY", "2")]
      = some ([("GeoX", ""), ("GeoY", "")], [⟨"GeoX,GeoY", "OSGB", ","⟩]) := by
  decide

/-- C4 counterexample: with `GeoX` blank and `GeoY = "51.5"`, the
resolver keeps `GeoY` as `"51.5"`, so it does not leave both output
fields blank as the claim states. -/
theorem claim4_cex_partner_not_blanked :
    normalise_geometry tfZero [("GeoX", ""), ("GeoY", "51.5")]
      = some ([("GeoX", ""), ("GeoY", "51.5")], []) ∧
    getv [("GeoX", ""), ("GeoY", "51.5")] "GeoY" ≠ "" := by
  decide

/-- C4 as amended: when either raw coordinate is blank the resolver
returns the record unchanged and appends no anomaly entry — a blank
field stays blank, and a non-blank partner passes through. -/
theorem claim4_blank_coordinate_passthrough
    (tf : PyDecimal → PyDecimal → PyDecimal × PyDecimal) (row : Row)
    (h : getv row "GeoX" = "" ∨ getv row "GeoY" = "") :
    normalise_geometry tf row = some (row, []) := by
  unfold normalise_geometry
  rw [if_pos h]

/-- C4 witness: the amended statement at the counterexample record. -/
theorem claim4_witness :
    normalise_geometry tfZero [("GeoX", ""), ("GeoY", "51.5")]
      = some ([("GeoX", ""), ("GeoY", "51.5")], []) :=
  claim4_blank_coordinate_passthrough tfZero [("GeoX", ""), ("GeoY", "51.5")]
    (Or.inl (by decide))

/-- C5 counterexample: the enum key of `"Retail/Leisure"` is
`"retail leisure"`, not the claimed `"retailleisure"`: the character
outside `[a-z0-9-_ ]` is replaced by a space, not removed. -/
theorem claim5_cex_slash_becomes_space :
    normalise_enum_value "Retail/Leisure" = "retail leisure" ∧
    normalise_enum_value "Retail/Leisure" ≠ "retailleisure" := by
  decide

/-- C5 as amended: the key is obtained by lower-casing, replacing every
run of characters outside `[a-z0-9-_ ]` by a single space and collapsing
whitespace; the resolver returns the canonical token the key maps to in
the field's enum index (first conjunct), or logs an `"enum"` issue with
the original raw value and returns empty on a miss (second conjunct);
`"Retail/Leisure"` normalises to the key `"retail leisure"` (third
conjunct). -/
theorem claim5_enum_key_and_lookup (fv : EnumIndex) (field v t : String) :
    (enumLookup fv field (normalise_enum_value v) = some t →
      normalise_enum fv field v = (t, [])) ∧
    (enumLookup fv field (normalise_enum_value v) = none →
      normalise_enum fv field v = ("", [⟨field, "enum", v⟩])) ∧
    normalise_enum_value "Retail/Leisure" = "retail leisure" := by
  refine ⟨?_, ?_, by decide⟩ <;> intro h <;> unfold normalise_enum <;> rw [h]

/-- C5 witness: the amended statement on a concrete index, once hitting
through the spaced key and once missing. -/
theorem claim5_witness :
    normalise_enum [("Use", [("retail leisure", "Retail and Leisure")])] "Use" "Retail/Leisure"
      = ("Retail and Leisure", []) ∧
    normalise_enum [("Use", [("retail leisure", "Retail and Leisure")])] "Use" "Office"
      = ("", [⟨"Use", "enum", "Office"⟩]) :=
  ⟨(claim5_enum_key_and_lookup [("Use", [("retail leisure", "Retail and Leisure")])] "Use"
      "Retail/Leisure" "Retail and Leisure").1 (by decide),
   (claim5_enum_key_and_lookup [("Use", [("retail leisure", "Retail and Leisure")])] "Use"
      "Office" "x").2.1 (by decide)⟩

/-- C6 counterexample: the strip step does not leave `"42.0.0"`
untouched: the pattern `\.0+$` matches its final `".0"`, so the single
substitution yields `"42.0"`. -/
theorem claim6_cex_tail_is_stripped :
    subDotZeros "42.0.0" = "42.0" ∧ subDotZeros "42.0.0" ≠ "42.0.0" := by
  decide

/-- C6 as amended: the integer normaliser strips at most one trailing
run matching `\.0+$` before parsing, so `"42.00"` normalises to `"42"`;
`"42.0.0"` has its final `".0"` stripped, yielding `"42.0"`, which then
fails integer parsing, logging an `"integer"` issue (whose value is the
stripped `"42.0"`) and returning the empty string. -/
theorem claim6_integer_strip_behaviour :
    normalise_integer "f" "42.00" = ("42", []) ∧
    subDotZeros "42.00" = "42" ∧
    subDotZeros "42.0.0" = "42.0" ∧
    normalise_integer "f" "42.0.0" = ("", [⟨"f", "integer", "42.0"⟩]) := by
  decide

/-- C7: for a duplicate-listed field, each row is filled from the old
state before the state is committed from the same row, so the value
sequence X, blank, blank, Y, blank comes out as X, X, X, Y, Y — both for
the carry-forward loop alone over any field name (first conjunct) and
through the whole record pipeline for a verbatim field named `F`, where
the run also logs no anomaly (second conjunct). -/
theorem claim7_carry_forward (f X Y : String) (hX : X ≠ "") (hY : Y ≠ "") :
    (processDefaults [f] []
        [[(f, X)], [(f, "")], [(f, "")], [(f, Y)], [(f, "")]]).map
      (fun o => getv o f) = [X, X, X, Y, Y] ∧
    (runPipeline envT tfZero [⟨"F", "", "", none, [], none, ""⟩] ["F"] []
        [[("F", X)], [("F", "")], [("F", "")], [("F", Y)], [("F", "")]]).map
      (fun p => (p.1.map (fun o => getv o "F"), p.2))
      = some ([X, X, X, Y, Y], []) := by
  constructor
  · simp [processDefaults, defaultFn, fillDefaults, commitDefaults, getv, setv,
      List.foldl, hX, hY]
  · simp [runPipeline, normaliseFields, normalise, applyStrips, normalise_geometry,
      defaultFn, fillDefaults, commitDefaults, getv, setv, List.foldl, hX, hY]

/-- C7 witness: the carry-forward sequence at a concrete field and
values. -/
theorem claim7_witness :
    (processDefaults ["F"] []
        [[("F", "X")], [("F", "")], [("F", "")], [("F", "Y")], [("F", "")]]).map
      (fun o => getv o "F") = ["X", "X", "X", "Y", "Y"] ∧
    (runPipeline envT tfZero [⟨"F", "", "", none, [], none, ""⟩] ["F"] []
        [[("F", "X")], [("F", "")], [("F", "")], [("F", "Y")], [("F", "")]]).map
      (fun p => (p.1.map (fun o => getv o "F"), p.2))
      = some (["X", "X", "X", "Y", "Y"], []) :=
  claim7_carry_forward "F" "X" "Y" (by decide) (by decide)

/-- C8: the date patterns are tried in order with first-successful-parse
wins; the ambiguous US pattern `%m/%d/%Y` is last; for `"01/02/2020"`
the first pattern that parses is the UK `%d/%m/%Y` (which precedes the
US one in the list), the US pattern alone would have read it as January
the 2nd, and the output is `"2020-02-01"`. -/
theorem claim8_date_pattern_order :
    normalise_date "StartDate" "01/02/2020" = ("2020-02-01", []) ∧
    datePatterns.getLast? = some "%m/%d/%Y" ∧
    datePatterns.find?
        (fun p => (strptimeOpt (parseFmtL p.toList) "01/02/2020".toList).isSome)
      = some "%d/%m/%Y" ∧
    datePatterns.indexOf "%d/%m/%Y" < datePatterns.indexOf "%m/%d/%Y" ∧
    strptimeOpt (parseFmtL "%m/%d/%Y".toList) "01/02/2020".toList = some ⟨2020, 1, 2⟩ := by
  decide

/-- Helper for C9: the patch loop aborts with the ValueError message of
an offending row whenever some patch row names an undeclared enum token
(and every patch row names an indexed field, ruling the KeyError path
out). -/
theorem applyEnumPatch_error (fe : List (String × List String)) (patch : List PatchRow)
    (hall : ∀ r ∈ patch, (assocGet fe r.field).isSome = true)
    (hbad : ∃ r ∈ patch, ∃ es, assocGet fe r.field = some es ∧ r.enum ∉ es) :
    ∀ fv, ∃ r ∈ patch, (∃ es, assocGet fe r.field = some es ∧ r.enum ∉ es) ∧
      applyEnumPatch fe fv patch = Except.error (invalidEnumMsg r.field r.enum) := by
  induction patch with
  | nil => simp at hbad
  | cons r rs ih =>
    intro fv
    obtain ⟨es, hes⟩ := Option.isSome_iff_exists.mp (hall r (List.mem_cons_self r rs))
    by_cases hmem : r.enum ∈ es
    · have hbad' : ∃ r' ∈ rs, ∃ es', assocGet fe r'.field = some es' ∧ r'.enum ∉ es' := by
        obtain ⟨r', hr', es', h1, h2⟩ := hbad
        rcases List.mem_cons.mp hr' with h | h
        · subst h
          rw [hes] at h1
          exact absurd (Option.some_injective _ h1 ▸ hmem) h2
        · exact ⟨r', h, es', h1, h2⟩
      obtain ⟨r', hr', hb', herr⟩ :=
        ih (fun x hx => hall x (List.mem_cons_of_mem r hx)) hbad'
          (assocSet fv r.field
            (assocSet ((assocGet fv r.field).getD []) (normalise_enum_value r.value) r.enum))
      refine ⟨r', List.mem_cons_of_mem r hr', hb', ?_⟩
      simpa [applyEnumPatch, hes, hmem] using herr
    · exact ⟨r, List.mem_cons_self r rs, ⟨es, hes, hmem⟩,
        by simp [applyEnumPatch, hes, hmem]⟩

/-- C9: when some enum patch row names an enum token not declared for
its (indexed) field, the run aborts at load time with the ValueError
message naming the offending field and enum token, before any record is
processed: no output row is emitted and no row-level anomaly is
logged. -/
theorem claim9_fatal_patch_aborts (env0 : Env)
    (tf : PyDecimal → PyDecimal → PyDecimal × PyDecimal) (fields : List FieldSpec)
    (dup : List String) (patch : List PatchRow) (rows : List Row)
    (hall : ∀ r ∈ patch, (assocGet (field_enum_of fields) r.field).isSome = true)
    (hbad : ∃ r ∈ patch, ∃ es,
      assocGet (field_enum_of fields) r.field = some es ∧ r.enum ∉ es) :
    ∃ r ∈ patch, (∃ es, assocGet (field_enum_of fields) r.field = some es ∧ r.enum ∉ es) ∧
      harmonise_main env0 tf fields dup patch rows
        = Except.error (invalidEnumMsg r.field r.enum) ∧
      mainOutputs (harmonise_main env0 tf fields dup patch rows) = [] ∧
      mainIssues (harmonise_main env0 tf fields dup patch rows) = [] := by
  obtain ⟨r, hr, hb, herr⟩ :=
    applyEnumPatch_error (field_enum_of fields) patch hall hbad (field_value_of fields)
  have hmain : harmonise_main env0 tf fields dup patch rows
      = Except.error (invalidEnumMsg r.field r.enum) := by
    simp [harmonise_main, load_field_value, herr]
  exact ⟨r, hr, hb, hmain, by simp [mainOutputs, hmain], by simp [mainIssues, hmain]⟩

/-- C9 witness: a schema declaring `Status` with enum `permitted` and a
patch row naming the undeclared token `perm` abort the run with the
identifying message, emitting nothing. -/
theorem claim9_witness :
    ∃ r ∈ patchW, (∃ es, assocGet (field_enum_of fieldsW) r.field = some es ∧ r.enum ∉ es) ∧
      harmonise_main envT tfZero fieldsW [] patchW rowsW
        = Except.error (invalidEnumMsg r.field r.enum) ∧
      mainOutputs (harmonise_main envT tfZero fieldsW [] patchW rowsW) = [] ∧
      mainIssues (harmonise_main envT tfZero fieldsW [] patchW rowsW) = [] :=
  claim9_fatal_patch_aborts envT tfZero fieldsW [] patchW rowsW (by decide)
    ⟨⟨"Status", "perm", "Permitted!"⟩, List.mem_cons_self _ _,
      ["permitted"], by decide, by decide⟩

/-- C10: for a non-empty raw value, `normalise` equals running exactly
the normaliser selected by the fixed priority order (OrganisationURI
name, integer, number, date, format uri, extension format address, enum
constraint, verbatim) on the strip-pattern output; and a field that
declares both `format: uri` and an enum constraint never routes to the
enum resolver — outside the name/type branches it routes to the URI
normaliser. -/
theorem claim10_dispatch_priority (env : Env) (f : FieldSpec) (v : String) (hv : v ≠ "") :
    normalise env f v = runKind env f (normaliserKind f) (applyStrips f.strip v) ∧
    (f.format = "uri" → f.enum.isSome = true →
      normaliserKind f ≠ NKind.enumK ∧
      (f.name ≠ "OrganisationURI" → f.type ≠ "integer" → f.type ≠ "number" →
        f.type ≠ "date" → normaliserKind f = NKind.uriK)) := by
  constructor
  · unfold normalise normaliserKind runKind
    rw [if_neg hv]
    split_ifs <;> rfl
  · intro hfmt henum
    constructor
    · unfold normaliserKind
      split_ifs <;> simp_all
    · intro hname hint hnum hdate
      unfold normaliserKind
      rw [if_neg hname, if_neg hint, if_neg hnum, if_neg hdate, if_pos hfmt]

/-- C10 witness: a field with `format: uri` and an enum constraint, on
the raw value `"x y"`: the dispatch refinement holds and the selected
kind is the URI normaliser. -/
theorem claim10_witness :
    normalise envT fUriEnum "x y"
      = runKind envT fUriEnum (normaliserKind fUriEnum) (applyStrips fUriEnum.strip "x y") ∧
    normaliserKind fUriEnum = NKind.uriK := by
  have h := claim10_dispatch_priority envT fUriEnum "x y" (by decide)
  exact ⟨h.1, (h.2 rfl rfl).2 (by decide) (by decide) (by decide) (by decide)⟩

end Harmonise
